import Mathlib

/-!
Verification of the FOG bare-metal reimaging driver
(`teuthology/provision/fog.py`).

The Python module is embedded shallowly: every service interaction is a
value of an environment record (the response the service would give), and
each method becomes a pure function from that environment to a result
together with the trace of outward requests it issues.  The bounded retry
loop `safe_while` lives in `teuthology.contextutil`, outside the sources at
hand; it is modelled from the design document as a fuel-bounded polling
loop.
-/

set_option autoImplicit false

namespace Fog

/-- Failures surfaced by the module: the RuntimeErrors raised by the code,
HTTP failures from raise_for_status, MaxWhileTries from safe_while, and
console / remote-execution failures. -/
inductive Err where
  | notConfigured
  | hostNotFound (name : String)
  | ambiguousHost (name : String)
  | indexError
  | imageNotFound (name : String) (machineType : String) (suggestions : List String)
  | httpError (status : Nat)
  | maxWhileTries
  | powerFailure
  | remoteFailure
  | osMismatch
  deriving Repr, DecidableEq

/-- The machine_types config value may be a comma-joined string or a list
(fog.py:50-52). -/
inductive MachineTypes where
  | str (s : String)
  | list (l : List String)
  deriving Repr, DecidableEq

/-- Python truthiness of the machine_types config value. -/
def MachineTypes.truthy : MachineTypes → Bool
  | .str s => s != ""
  | .list l => !l.isEmpty

/-- The fog section of the teuthology config.  An unset key is modelled by
its falsy value ("" resp. the empty list), which is exactly what the
`not fog_conf.get(param)` test in `enabled` observes. -/
structure FogConf where
  endpoint : String
  api_token : String
  user_token : String
  machine_types : MachineTypes
  deriving Repr, DecidableEq

/-- `enabled` (fog.py:22-37): true iff none of the four required keys is
falsy. -/
def enabled (c : FogConf) : Bool :=
  c.endpoint != "" && c.api_token != "" && c.user_token != "" && c.machine_types.truthy

/-- `get_types` (fog.py:40-53): the parsed machine-type list; empty when FOG
is not enabled; a string value is split on commas; empty entries are
dropped. -/
def get_types (c : FogConf) : List String :=
  if enabled c = false then []
  else
    (match c.machine_types with
      | .str s => s.splitOn ","
      | .list l => l).filter (fun t => t != "")

deriving instance DecidableEq for Except

/-- Python str.lower as the module applies it (per-character lowering),
written over the character list so that concrete instances evaluate. -/
def lowerStr (s : String) : String := ⟨s.data.map Char.toLower⟩

/-- Is the first list a leading segment of the second? -/
def isPrefOf : List Char → List Char → Bool
  | [], _ => true
  | _ :: _, [] => false
  | a :: as, b :: bs => a == b && isPrefOf as bs

/-- Python str.endswith, written over the character lists so that concrete
instances evaluate. -/
def strEndsWith (s suffix : String) : Bool :=
  isPrefOf suffix.data.reverse s.data.reverse

/-- A host record of the service, as used by the module (`id`, `name`);
the numeric id is already parsed (`int(host_data['id'])`). -/
structure HostRec where
  id : Nat
  name : String
  deriving Repr, DecidableEq

/-- The response of `GET /host` filtered by name: a result count and the
matching host records. -/
structure HostResponse where
  count : Nat
  hosts : List HostRec
  deriving Repr, DecidableEq

/-- `FOG.get_host_data` (fog.py:128-144).  A count of 1 with an empty
hosts array is the IndexError of `obj['hosts'][0]`. -/
def get_host_data (shortname : String) (resp : HostResponse) : Except Err HostRec :=
  if resp.count = 0 then .error (.hostNotFound shortname)
  else if 1 < resp.count then .error (.ambiguousHost shortname)
  else
    match resp.hosts with
    | [] => .error .indexError
    | h :: _ => .ok h

/-- An image record of the service. -/
structure ImageRec where
  id : Nat
  name : String
  deriving Repr, DecidableEq

/-- The canonical image-name convention of `get_image_data` (fog.py:163). -/
def image_name (machineType osType osVersion : String) : String :=
  machineType ++ "_" ++ lowerStr osType ++ "_" ++ osVersion

/-- `FOG.suggest_image_names` (fog.py:175-184) applied to the parsed
response of the by-machine-type image search. -/
def suggest_image_names (images : List ImageRec) : List String :=
  images.map (fun image => image.name)

/-- The outward requests issued by the module, recorded as a trace. -/
inductive Event where
  | hostQuery
  | imageQuery (name : String)
  | imageSearch (machineType : String)
  | setImagePut (hostId : Nat) (imageId : Nat)
  | activeQuery
  | cancelReq (taskId : Option String)
  | tasktypeQuery
  | schedulePost (hostId : Nat)
  | powerOff
  | powerOn
  | deployPoll
  | readyWait
  | fixHostnameStep
  | verifyOsStep
  deriving Repr, DecidableEq

/-- `FOG.get_image_data` (fog.py:146-173).  `lookup` is the by-name image
query of the inner `do_get` (the first image when the count is truthy, else
None); `searchImages` is the parsed `/image/search/{machine_type}` response
consumed by `suggest_image_names` when the error is built.  Returns the
result together with the request trace. -/
def get_image_data (machineType osType osVersion : String)
    (lookup : String → Option ImageRec) (searchImages : List ImageRec) :
    Except Err ImageRec × List Event :=
  let name := image_name machineType osType osVersion
  match lookup name with
  | some image => (.ok image, [.imageQuery name])
  | none =>
    if lowerStr osType == "centos" && !(strEndsWith osVersion ".stream") then
      match lookup (name ++ ".stream") with
      | some image => (.ok image, [.imageQuery name, .imageQuery (name ++ ".stream")])
      | none =>
        (.error (.imageNotFound name machineType (suggest_image_names searchImages)),
         [.imageQuery name, .imageQuery (name ++ ".stream"), .imageSearch machineType])
    else
      (.error (.imageNotFound name machineType (suggest_image_names searchImages)),
       [.imageQuery name, .imageSearch machineType])

/-- One entry of `GET /task/active` as consumed by the module: the task id,
the `host.name` field, and `createdTime` already parsed from the fixed
timestamp format to UTC epoch seconds. -/
structure TaskRec where
  id : String
  hostName : String
  createdTime : Int
  deriving Repr, DecidableEq

/-- An HTTP response as `do_request` sees it: `ok` is the requests success
flag (checked by raise_for_status when verify=True), `parsed` the result of
extracting the JSON payload, none when that extraction throws. -/
structure HttpResp (α : Type) where
  ok : Bool
  status : Nat
  parsed : Option α
  deriving Repr, DecidableEq

/-- `FOG.get_deploy_tasks` (fog.py:238-250).  `do_request` is called with
the default verify=True, so a non-success status raises before the guarded
block; only the payload extraction is wrapped in try/except and yields the
empty list on failure; the result is filtered to our host by name. -/
def get_deploy_tasks (shortname : String) (resp : HttpResp (List TaskRec)) :
    Except Err (List TaskRec) :=
  if resp.ok = false then .error (.httpError resp.status)
  else
    match resp.parsed with
    | none => .ok []
    | some tasks => .ok (tasks.filter (fun t => t.hostName == shortname))

/-- `FOG.deploy_task_active` (fog.py:252-260); `taskId` is none when
`schedule_deploy_task` fell through without finding a fresh task. -/
def deploy_task_active (shortname : String) (taskId : Option String)
    (resp : HttpResp (List TaskRec)) : Except Err Bool :=
  (get_deploy_tasks shortname resp).map (fun ts => ts.any (fun t => some t.id == taskId))

/-- The freshness selection at the end of `schedule_deploy_task`
(fog.py:226-236): the first listed task whose age relative to now is below
5 seconds, else none (the Python function falls off the end). -/
def select_fresh_task (now : Int) (tasks : List TaskRec) : Option String :=
  (tasks.find? (fun t => decide (now - t.createdTime < 5))).map (fun t => t.id)

/-- A deploy tasktype entry of `GET /tasktype`. -/
structure TaskTypeRec where
  id : Nat
  name : String
  deriving Repr, DecidableEq

/-- The service responses consumed by one `schedule_deploy_task` run: the
active-task list before scheduling, the tasktype list, the active-task list
after the POST, and the current UTC time in epoch seconds. -/
structure ScheduleEnv where
  tasksBefore : HttpResp (List TaskRec)
  tasktypes : List TaskTypeRec
  tasksAfter : HttpResp (List TaskRec)
  now : Int
  deriving DecidableEq

/-- `FOG.schedule_deploy_task` (fog.py:201-236): cancel every active task
listed for the host, find the deploy tasktype (IndexError when absent),
POST the task, re-list and apply the freshness selection.  Cancellation of
the stale tasks is modelled as succeeding.  Returns the result together
with the request trace. -/
def schedule_deploy_task (shortname : String) (hostId : Nat) (env : ScheduleEnv) :
    Except Err (Option String) × List Event :=
  match get_deploy_tasks shortname env.tasksBefore with
  | .error e => (.error e, [.activeQuery])
  | .ok pre =>
    let cancels := pre.map (fun t => Event.cancelReq (some t.id))
    match env.tasktypes.filter (fun tt => lowerStr tt.name == "deploy") with
    | [] => (.error .indexError, .activeQuery :: cancels ++ [.tasktypeQuery])
    | _ :: _ =>
      let evs := Event.activeQuery :: cancels
        ++ [.tasktypeQuery, .schedulePost hostId, .activeQuery]
      match get_deploy_tasks shortname env.tasksAfter with
      | .error e => (.error e, evs)
      | .ok post => (.ok (select_fresh_task env.now post), evs)

/-- Modelled from the spec: `safe_while` (teuthology.contextutil, not under
the given sources) is a bounded polling loop — fixed sleep interval,
bounded attempt count and/or wall-clock timeout, whichever triggers first —
that raises MaxWhileTries once the budget is exhausted.  We model the
budget as a maximal attempt count (the fuel) and let the caller derive the
fuel from its timeout.  `wait_for_deploy_task` (fog.py:262-271) polls
`deploy_task_active` with it until the task is gone; the poll count made is
returned alongside the result. -/
def waitLoop (shortname : String) (taskId : Option String)
    (polls : Nat → HttpResp (List TaskRec)) : Nat → Nat → Except Err Unit × Nat
  | 0, k => (.error .maxWhileTries, k)
  | fuel + 1, k =>
    match deploy_task_active shortname taskId (polls k) with
    | .error e => (.error e, k + 1)
    | .ok true => waitLoop shortname taskId polls fuel (k + 1)
    | .ok false => (.ok (), k + 1)

/-- The attempt budget of `safe_while(sleep=15, tries=120, timeout=...)`
(fog.py:268): at most 120 tries and at most timeout/15 + 1 attempts. -/
def deployWaitFuel (timeout : Nat) : Nat := min 120 (timeout / 15 + 1)

/-- `FOG.wait_for_deploy_task` (fog.py:262-271). -/
def wait_for_deploy_task (shortname : String) (taskId : Option String)
    (polls : Nat → HttpResp (List TaskRec)) (timeout : Nat) : Except Err Unit × Nat :=
  waitLoop shortname taskId polls (deployWaitFuel timeout) 0

/-- Everything outside the control of `FOG.create`: the configuration, the
service responses, and the outcome of each external step.  Steps whose
internals are modelled separately (`_wait_for_ready`, `_fix_hostname`,
`_verify_installed_os`) are abstracted to their outcome here. -/
structure CreateEnv where
  conf : FogConf
  shortname : String
  machineType : String
  osType : String
  osVersion : String
  hostResp : HostResponse
  imageLookup : String → Option ImageRec
  searchImages : List ImageRec
  sched : ScheduleEnv
  powerOffOk : Bool
  powerOnOk : Bool
  waitPolls : Nat → HttpResp (List TaskRec)
  reimageTimeout : Nat
  cancelOk : Bool
  readyOk : Bool
  fixOk : Bool
  osOk : Bool

/-- The body of the try block of `FOG.create` (fog.py:81-87): power off,
power on, then wait for the deploy task. -/
def power_and_wait (env : CreateEnv) (taskId : Option String) :
    Except Err Unit × List Event :=
  if env.powerOffOk = false then (.error .powerFailure, [.powerOff])
  else if env.powerOnOk = false then (.error .powerFailure, [.powerOff, .powerOn])
  else
    ((wait_for_deploy_task env.shortname taskId env.waitPolls env.reimageTimeout).1,
     [Event.powerOff, Event.powerOn]
       ++ List.replicate
         (wait_for_deploy_task env.shortname taskId env.waitPolls env.reimageTimeout).2
         Event.deployPoll)

/-- The part of `FOG.create` after the enabled gate (fog.py:77-94): host
resolution, image selection (`set_image`), deploy scheduling, the
power-cycle/wait try block with its compensating `cancel_deploy_task` on
failure (the compensation itself calls raise_for_status, so
`cancelOk = false` turns the propagated error into an HTTP error), then
readiness, hostname fix and OS check.  The trace excludes the leading host
query, which `create` prepends. -/
def create_body (env : CreateEnv) : Except Err Unit × List Event :=
  match get_host_data env.shortname env.hostResp with
  | .error e => (.error e, [])
  | .ok host =>
    match (get_image_data env.machineType env.osType env.osVersion
        env.imageLookup env.searchImages).1 with
    | .error e =>
      (.error e,
       (get_image_data env.machineType env.osType env.osVersion
         env.imageLookup env.searchImages).2)
    | .ok image =>
      match (schedule_deploy_task env.shortname host.id env.sched).1 with
      | .error e =>
        (.error e,
         (get_image_data env.machineType env.osType env.osVersion
             env.imageLookup env.searchImages).2
           ++ [Event.setImagePut host.id image.id]
           ++ (schedule_deploy_task env.shortname host.id env.sched).2)
      | .ok taskId =>
        match (power_and_wait env taskId).1 with
        | .error e =>
          (if env.cancelOk then Except.error e else Except.error (Err.httpError 500),
           (get_image_data env.machineType env.osType env.osVersion
               env.imageLookup env.searchImages).2
             ++ [Event.setImagePut host.id image.id]
             ++ (schedule_deploy_task env.shortname host.id env.sched).2
             ++ (power_and_wait env taskId).2 ++ [Event.cancelReq taskId])
        | .ok _ =>
          (if env.readyOk = false then .error .maxWhileTries
           else if env.fixOk = false then .error .remoteFailure
           else if env.osOk = false then .error .osMismatch
           else .ok (),
           (get_image_data env.machineType env.osType env.osVersion
               env.imageLookup env.searchImages).2
             ++ [Event.setImagePut host.id image.id]
             ++ (schedule_deploy_task env.shortname host.id env.sched).2
             ++ (power_and_wait env taskId).2
             ++ (if env.readyOk = false then [Event.readyWait]
                 else if env.fixOk = false then [Event.readyWait, Event.fixHostnameStep]
                 else [Event.readyWait, Event.fixHostnameStep, Event.verifyOsStep]))

/-- `FOG.create` (fog.py:71-94): the enabled gate, then `create_body`, with
the host query opening the request trace. -/
def create (env : CreateEnv) : Except Err Unit × List Event :=
  if enabled env.conf = false then (.error .notConfigured, [])
  else ((create_body env).1, Event.hostQuery :: (create_body env).2)

/-- Is an event the schedule POST? -/
def Event.isSched : Event → Bool
  | .schedulePost _ => true
  | _ => false

/-- Is an event a cancel request? -/
def Event.isCancel : Event → Bool
  | .cancelReq _ => true
  | _ => false

/-- The cancel requests issued at or after the first schedule POST of a
trace. -/
def cancelsAfterSchedule (tr : List Event) : List Event :=
  (tr.dropWhile (fun e => !e.isSched)).filter Event.isCancel

/-- Outcome of one `remote.connect()` attempt in `_wait_for_ready`
(fog.py:286-301): success, or one of the caught retryable failures
(socket.error, SSHException, NoValidConnectionsError, MaxWhileTries,
EOFError). -/
inductive ConnectOutcome where
  | ok
  | retryable
  deriving Repr, DecidableEq

/-- Outcome of one sentinel-wait `remote.run` attempt (fog.py:307-315):
success, or one of the caught connection failures (ConnectionError,
EOFError). -/
inductive RunOutcome where
  | ok
  | connErr
  deriving Repr, DecidableEq

/-- The environment of `_wait_for_ready`: the outcome of the k-th connect
attempt, the optional configured sentinel file, and the outcome of the k-th
sentinel-wait command. -/
structure ReadyEnv where
  connects : Nat → ConnectOutcome
  sentinelFile : Option String
  runs : Nat → RunOutcome

/-- Modelled from the spec: the retry loop of `safe_while`
(teuthology.contextutil, not under the given sources) as a fuel-indexed
search for the first successful attempt.  Returns whether an attempt
succeeded within the budget, together with the number of attempts made. -/
def safeWhileLoop (attempt : Nat → Bool) : Nat → Nat → Bool × Nat
  | 0, k => (false, k)
  | fuel + 1, k => if attempt k then (true, k + 1) else safeWhileLoop attempt fuel (k + 1)

/-- The attempt budget of `safe_while(sleep=6, timeout=t)` (fog.py:285):
with a sleep of 6 seconds between attempts, a wall clock of t seconds
permits at most t/6 + 1 attempts. -/
def sshFuel (timeout : Nat) : Nat := timeout / 6 + 1

/-- The attempt budget of `safe_while(action=..., timeout=1800, increment=3)`
(fog.py:306): the sleeps grow by 3 seconds per retry, so 601 bounds the
attempts the fixed 1800-second budget permits. -/
def sentinelFuel : Nat := 1800 / 3 + 1

/-- `FOG._wait_for_ready` (fog.py:283-316): an SSH-reachability polling
phase bounded by the configured fog_wait_for_ssh_timeout, then — only when
a sentinel file is configured — a sentinel polling phase bounded by its
overall 1800-second budget, retrying on connection errors.  On success the
attempt counts of the two phases are returned. -/
def wait_for_ready (sshTimeout : Nat) (env : ReadyEnv) : Except Err (Nat × Nat) :=
  match safeWhileLoop (fun k => env.connects k == ConnectOutcome.ok) (sshFuel sshTimeout) 0 with
  | (false, _) => .error .maxWhileTries
  | (true, nc) =>
    match env.sentinelFile with
    | none => .ok (nc, 0)
    | some _ =>
      match safeWhileLoop (fun k => env.runs k == RunOutcome.ok) sentinelFuel 0 with
      | (false, _) => .error .maxWhileTries
      | (true, ns) => .ok (nc, ns)

/-- Whitespace as split by the hostname extraction (a line never holds a
newline). -/
def isWs (c : Char) : Bool := c == ' ' || c == '\t'

/-- Split a file into its lines. -/
def splitOnNl : List Char → List (List Char)
  | [] => [[]]
  | c :: rest =>
    match splitOnNl rest with
    | [] => [[]]
    | l :: ls => if c == '\n' then [] :: l :: ls else (c :: l) :: ls

/-- Does the pattern occur contiguously somewhere in the text? -/
def occursIn (pat : List Char) : List Char → Bool
  | [] => isPrefOf pat []
  | c :: rest => isPrefOf pat (c :: rest) || occursIn pat rest

/-- Global literal substitution, as the design reads the
`sed -e s/old/new/g` calls of `_fix_hostname`: every occurrence of old is
replaced by new, scanning left to right.  The fuel argument (at least the
length of the text) keeps the recursion structural so that concrete
instances evaluate. -/
def replaceAllFuel (old new : List Char) : Nat → List Char → List Char
  | _, [] => []
  | 0, t => t
  | fuel + 1, c :: rest =>
    if old ≠ [] ∧ isPrefOf old (c :: rest) = true then
      new ++ replaceAllFuel old new fuel (List.drop (old.length - 1) rest)
    else
      c :: replaceAllFuel old new fuel rest

/-- Replace every occurrence of old by new in t. -/
def replaceAll (old new t : List Char) : List Char :=
  replaceAllFuel old new t.length t

/-- `grep pattern /etc/hosts`: the lines holding the pattern. -/
def grepLines (pat : List Char) (file : List Char) : List (List Char) :=
  (splitOnNl file).filter (fun l => occursIn pat l)

/-- The IP extraction of `_fix_hostname` (fog.py:330): the first
whitespace-separated token of the first matching line. -/
def firstToken (l : List Char) : List Char :=
  (l.dropWhile isWs).takeWhile (fun c => !isWs c)

/-- The remote state `_fix_hostname` manipulates: the hosts file, the
hostname file, and the live hostname. -/
structure HostState where
  hostsFile : List Char
  hostnameFile : List Char
  liveHostname : List Char
  deriving Repr, DecidableEq

/-- The inputs of `_fix_hostname`: the stale hostname reported by the
machine, the target short name, and the current IP address of the remote. -/
structure FixEnv where
  wrongHostname : List Char
  shortname : List Char
  ipAddress : List Char
  deriving Repr, DecidableEq

/-- `FOG._fix_hostname` (fog.py:318-348): grep the hosts file for the stale
hostname; when a line matches, extract its first token as the stale IP and
rewrite the hosts file (stale hostname to short name, then stale IP to the
current IP); in every case rewrite the hostname file and set the live
hostname to the short name (the check_status=False fallbacks are modelled
as succeeding). -/
def fix_hostname (env : FixEnv) (st : HostState) : HostState :=
  match grepLines env.wrongHostname st.hostsFile with
  | [] =>
    { hostsFile := st.hostsFile
      hostnameFile := replaceAll env.wrongHostname env.shortname st.hostnameFile
      liveHostname := env.shortname }
  | line :: _ =>
    { hostsFile := replaceAll (firstToken line) env.ipAddress
        (replaceAll env.wrongHostname env.shortname st.hostsFile)
      hostnameFile := replaceAll env.wrongHostname env.shortname st.hostnameFile
      liveHostname := env.shortname }

/-! ### Concrete environments used by the witnesses below -/

/-- A fresh task listed for node1, three seconds old at time 100. -/
def freshTask : TaskRec := { id := "t2", hostName := "node1", createdTime := 97 }

/-- A schedule environment: nothing active beforehand, a deploy tasktype,
and one fresh task listed after the POST. -/
def schedEnvA : ScheduleEnv :=
  { tasksBefore := { ok := true, status := 200, parsed := some [] }
    tasktypes := [{ id := 3, name := "deploy" }]
    tasksAfter := { ok := true, status := 200, parsed := some [freshTask] }
    now := 100 }

/-- Two stale tasks of node1 and one task of another host, listed before
the POST. -/
def staleTasks : List TaskRec :=
  [{ id := "old1", hostName := "node1", createdTime := 0 },
   { id := "x", hostName := "other", createdTime := 0 },
   { id := "old2", hostName := "node1", createdTime := 3 }]

/-- A schedule environment with stale host tasks to cancel. -/
def schedEnvB : ScheduleEnv :=
  { tasksBefore := { ok := true, status := 200, parsed := some staleTasks }
    tasktypes := [{ id := 3, name := "deploy" }]
    tasksAfter := { ok := true, status := 200, parsed := some [] }
    now := 100 }

/-- A baseline create environment: enabled config, a uniquely resolved
host, a directly found image, and every external step succeeding. -/
def createEnvBase : CreateEnv :=
  { conf := { endpoint := "http://fog", api_token := "a", user_token := "u",
              machine_types := .list ["smithi"] }
    shortname := "node1"
    machineType := "smithi"
    osType := "CentOS"
    osVersion := "9"
    hostResp := { count := 1, hosts := [{ id := 7, name := "node1" }] }
    imageLookup := fun n => if n = "smithi_centos_9" then some { id := 42, name := n } else none
    searchImages := [{ id := 42, name := "smithi_centos_9" }]
    sched := schedEnvA
    powerOffOk := true
    powerOnOk := true
    waitPolls := fun _ => { ok := true, status := 200, parsed := some [] }
    reimageTimeout := 900
    cancelOk := true
    readyOk := true
    fixOk := true
    osOk := true }

/-- An enabled configuration whose machine_types value is non-empty (hence
truthy) yet parses to no machine type at all. -/
def createEnvNoType : CreateEnv :=
  { createEnvBase with
      conf := { endpoint := "http://fog", api_token := "a", user_token := "u",
                machine_types := .list [""] }
      hostResp := { count := 0, hosts := [] } }

/-- A create environment with an unset endpoint, hence a disabled config. -/
def createEnvDisabled : CreateEnv :=
  { createEnvBase with
      conf := { endpoint := "", api_token := "a", user_token := "u",
                machine_types := .list ["smithi"] } }

/-- A create environment whose power-off step fails. -/
def createEnvPowerFail : CreateEnv :=
  { createEnvBase with powerOffOk := false }

/-- A create environment in which the freshness selection comes up empty:
the post-schedule listing holds no task at all. -/
def createEnvNone : CreateEnv :=
  { createEnvBase with sched := schedEnvB }

/-- A readiness environment: the first connect attempt fails retryably, the
second succeeds; a sentinel file is configured and its first check
succeeds. -/
def readyEnvA : ReadyEnv :=
  { connects := fun k => if k = 0 then .retryable else .ok
    sentinelFile := some "/ceph-qa-ready"
    runs := fun _ => .ok }

/-- Hostname-fix inputs whose replacement strings share no character with
the replaced ones. -/
def fixEnvA : FixEnv :=
  { wrongHostname := "foo".data, shortname := "bar".data, ipAddress := "2".data }

/-- A pre-fix host state for fixEnvA: one hosts line with the stale name
and a token in IP position. -/
def hostStA : HostState :=
  { hostsFile := "111 foo".data, hostnameFile := "foo".data, liveHostname := "foo".data }

/-- Hostname-fix inputs in which the target short name contains the stale
hostname. -/
def fixEnvBad : FixEnv :=
  { wrongHostname := "node".data, shortname := "node1".data, ipAddress := "10.0.0.2".data }

/-- A pre-fix host state for fixEnvBad. -/
def hostStBad : HostState :=
  { hostsFile := "10.0.0.1 node".data, hostnameFile := "node".data,
    liveHostname := "node".data }

/-! ### General list helpers -/

theorem dropWhile_append_all {α : Type} (p : α → Bool) :
    ∀ l₁ l₂ : List α, (∀ e ∈ l₁, p e = true) →
      List.dropWhile p (l₁ ++ l₂) = List.dropWhile p l₂
  | [], _, _ => rfl
  | a :: l₁, l₂, h => by
    have ha : p a = true := h a (List.mem_cons_self a l₁)
    have hrest : ∀ e ∈ l₁, p e = true := fun e he => h e (List.mem_cons_of_mem a he)
    simp only [List.cons_append, List.dropWhile_cons, ha, if_true]
    exact dropWhile_append_all p l₁ l₂ hrest

theorem filter_eq_nil_all {α : Type} (p : α → Bool) :
    ∀ l : List α, (∀ e ∈ l, p e = false) → l.filter p = []
  | [], _ => rfl
  | a :: l, h => by
    have ha : p a = false := h a (List.mem_cons_self a l)
    have hrest : ∀ e ∈ l, p e = false := fun e he => h e (List.mem_cons_of_mem a he)
    simp only [List.filter_cons, ha, Bool.false_eq_true, if_false]
    exact filter_eq_nil_all p l hrest

/-! ### Claim C3: host resolution -/

/-- C3.  For every host-search response (with the count consistent with the
returned records), resolution returns the single matching host record when
count = 1, and fails without a value when count = 0 (host not found) or
count > 1 (ambiguous host). -/
theorem get_host_data_unique_match (n : String) (resp : HostResponse)
    (hwf : resp.hosts.length = resp.count) :
    (resp.count = 1 → ∃ h, resp.hosts = [h] ∧ get_host_data n resp = .ok h) ∧
    (resp.count = 0 → get_host_data n resp = .error (.hostNotFound n)) ∧
    (1 < resp.count → get_host_data n resp = .error (.ambiguousHost n)) := by
  refine ⟨?_, ?_, ?_⟩
  · intro h1
    have hlen : resp.hosts.length = 1 := by rw [hwf, h1]
    rcases List.length_eq_one.mp hlen with ⟨h, hh⟩
    refine ⟨h, hh, ?_⟩
    unfold get_host_data
    rw [h1, hh]
    simp
  · intro h0
    unfold get_host_data
    rw [h0]
    simp
  · intro h2
    unfold get_host_data
    have : resp.count ≠ 0 := by omega
    simp [this, h2]

theorem get_host_data_unique_match_witness :
    ∃ h, [({ id := 5, name := "node7" } : HostRec)] = [h] ∧
      get_host_data "node7" ⟨1, [{ id := 5, name := "node7" }]⟩ = .ok h :=
  (get_host_data_unique_match "node7" ⟨1, [{ id := 5, name := "node7" }]⟩ rfl).1 rfl

/-! ### Claim C4: image resolution with the stream-suffix fallback -/

/-- C4.  The stream-suffix fallback lookup is attempted if and only if the
primary name is absent, os_type is the CentOS family and os_version does
not already end with the suffix; when every applicable lookup is absent,
resolution fails with an image-not-found error carrying the suggested image
names for the machine type. -/
theorem get_image_data_stream_fallback (mt ot ov : String)
    (lookup : String → Option ImageRec) (searchImages : List ImageRec) :
    (((get_image_data mt ot ov lookup searchImages).2 =
        [.imageQuery (image_name mt ot ov),
         .imageQuery (image_name mt ot ov ++ ".stream")] ∨
      (get_image_data mt ot ov lookup searchImages).2 =
        [.imageQuery (image_name mt ot ov),
         .imageQuery (image_name mt ot ov ++ ".stream"), .imageSearch mt]) ↔
      (lookup (image_name mt ot ov) = none ∧
        (lowerStr ot == "centos" && !(strEndsWith ov ".stream")) = true)) ∧
    ((get_image_data mt ot ov lookup searchImages).1 =
        .error (.imageNotFound (image_name mt ot ov) mt
          (suggest_image_names searchImages)) ↔
      (lookup (image_name mt ot ov) = none ∧
        ((lowerStr ot == "centos" && !(strEndsWith ov ".stream")) = true →
          lookup (image_name mt ot ov ++ ".stream") = none))) ∧
    (∀ img, (get_image_data mt ot ov lookup searchImages).1 = .ok img →
      lookup (image_name mt ot ov) = some img ∨
        lookup (image_name mt ot ov ++ ".stream") = some img) := by
  unfold get_image_data
  rcases hl : lookup (image_name mt ot ov) with _ | img₀
  · rcases hc : (lowerStr ot == "centos" && !(strEndsWith ov ".stream")) with _ | _
    · simp [hl, hc]
    · rcases hf : lookup (image_name mt ot ov ++ ".stream") with _ | img₁
      · simp [hl, hc, hf]
      · simp [hl, hc, hf]
  · simp [hl]

/-! ### Claim C5: active-task listing -/

/-- C5 counterexample.  A non-success HTTP response to the active-task
query (whose body therefore yields no task list) makes `get_deploy_tasks`
raise instead of returning the empty list: `do_request` is called with the
default verify=True, so `raise_for_status` fires before the guarded parse. -/
theorem get_deploy_tasks_raises_on_http_error_counterexample :
    (({ ok := false, status := 500, parsed := none } : HttpResp (List TaskRec)).parsed
        = none) ∧
    get_deploy_tasks "node1" { ok := false, status := 500, parsed := none } =
      .error (.httpError 500) := by
  exact ⟨rfl, rfl⟩

/-- C5 amended.  When the HTTP request itself succeeds, a response whose
body cannot be parsed into a task list is logged and turned into the empty
list instead of raising, and a parsed body yields exactly the tasks whose
host name equals the target short name; a non-success HTTP status, however,
raises an HTTP error. -/
theorem get_deploy_tasks_soft_parse_failure (n : String) (resp : HttpResp (List TaskRec)) :
    (resp.ok = true → resp.parsed = none → get_deploy_tasks n resp = .ok []) ∧
    (resp.ok = true → ∀ ts, resp.parsed = some ts →
      get_deploy_tasks n resp = .ok (ts.filter (fun t => t.hostName == n))) ∧
    (resp.ok = false → get_deploy_tasks n resp = .error (.httpError resp.status)) := by
  refine ⟨?_, ?_, ?_⟩
  · intro hok hp
    unfold get_deploy_tasks
    rw [hok, hp]
    simp
  · intro hok ts hp
    unfold get_deploy_tasks
    rw [hok, hp]
    simp
  · intro hok
    unfold get_deploy_tasks
    rw [hok]
    simp

theorem get_deploy_tasks_soft_parse_failure_witness :
    get_deploy_tasks "node1" ({ ok := true, status := 200, parsed := none }) = .ok [] :=
  (get_deploy_tasks_soft_parse_failure "node1"
    { ok := true, status := 200, parsed := none }).1 rfl rfl

/-! ### Scheduling: shared characterization -/

/-- On the unexceptional path (both active-task listings answered with a
success status and a parseable body, and a deploy tasktype exists),
`schedule_deploy_task` cancels exactly the pre-existing host tasks, in
order, before the schedule POST, and returns the freshness selection over
the re-listed host tasks. -/
theorem schedule_deploy_task_spec (n : String) (hid : Nat) (env : ScheduleEnv)
    (ts tss : List TaskRec)
    (hbok : env.tasksBefore.ok = true) (hbp : env.tasksBefore.parsed = some ts)
    (htt : env.tasktypes.filter (fun tt => lowerStr tt.name == "deploy") ≠ [])
    (haok : env.tasksAfter.ok = true) (hap : env.tasksAfter.parsed = some tss) :
    schedule_deploy_task n hid env =
      (.ok (select_fresh_task env.now (tss.filter (fun t => t.hostName == n))),
       Event.activeQuery :: (ts.filter (fun t => t.hostName == n)).map
           (fun t => Event.cancelReq (some t.id))
         ++ [.tasktypeQuery, .schedulePost hid, .activeQuery]) := by
  rcases List.exists_cons_of_ne_nil htt with ⟨a, l, hfeq⟩
  have hb : get_deploy_tasks n env.tasksBefore =
      .ok (ts.filter (fun t => t.hostName == n)) := by
    unfold get_deploy_tasks
    rw [hbok, hbp]
    simp
  have ha : get_deploy_tasks n env.tasksAfter =
      .ok (tss.filter (fun t => t.hostName == n)) := by
    unfold get_deploy_tasks
    rw [haok, hap]
    simp
  unfold schedule_deploy_task
  rw [hb, hfeq, ha]

/-! ### Claim C2: the freshness filter -/

/-- C2.  On the unexceptional path, the task selection of
`schedule_deploy_task` returns a task id only if that task is listed for
the host and its age relative to now is below the 5-second freshness
threshold; when no listed host task is that fresh it returns none. -/
theorem schedule_fresh_selection (n : String) (hid : Nat) (env : ScheduleEnv)
    (ts tss : List TaskRec)
    (hbok : env.tasksBefore.ok = true) (hbp : env.tasksBefore.parsed = some ts)
    (htt : env.tasktypes.filter (fun tt => lowerStr tt.name == "deploy") ≠ [])
    (haok : env.tasksAfter.ok = true) (hap : env.tasksAfter.parsed = some tss) :
    (∀ i, (schedule_deploy_task n hid env).1 = .ok (some i) →
      ∃ t, t ∈ tss ∧ t.hostName = n ∧ t.id = i ∧ env.now - t.createdTime < 5) ∧
    ((∀ t, t ∈ tss → t.hostName = n → ¬(env.now - t.createdTime < 5)) →
      (schedule_deploy_task n hid env).1 = .ok none) := by
  rw [schedule_deploy_task_spec n hid env ts tss hbok hbp htt haok hap]
  constructor
  · intro i hi
    simp only [select_fresh_task, Except.ok.injEq, Option.map_eq_some'] at hi
    rcases hi with ⟨t, hfind, hit⟩
    have htmem := List.mem_of_find?_eq_some hfind
    have htp := List.find?_some hfind
    rw [List.mem_filter] at htmem
    refine ⟨t, htmem.1, by simpa using htmem.2, hit, by simpa using htp⟩
  · intro hnone
    simp only [select_fresh_task, Except.ok.injEq, Option.map_eq_none', List.find?_eq_none]
    intro t htmem
    rw [List.mem_filter] at htmem
    have := hnone t htmem.1 (by simpa using htmem.2)
    simpa using this

theorem schedule_fresh_selection_witness :
    ∃ t, t ∈ [freshTask] ∧
      t.hostName = "node1" ∧ t.id = "t2" ∧ schedEnvA.now - t.createdTime < 5 :=
  (schedule_fresh_selection "node1" 7 schedEnvA [] [freshTask]
      rfl rfl (by decide) rfl rfl).1 "t2" (by decide)

/-! ### Claim C6: stale tasks are canceled before the schedule POST -/

/-- C6.  On the unexceptional path, the request trace of
`schedule_deploy_task` opens with the active-task listing followed by one
cancel request per listed host task, all strictly before the schedule
POST. -/
theorem schedule_cancels_active_before_post (n : String) (hid : Nat) (env : ScheduleEnv)
    (ts tss : List TaskRec)
    (hbok : env.tasksBefore.ok = true) (hbp : env.tasksBefore.parsed = some ts)
    (htt : env.tasktypes.filter (fun tt => lowerStr tt.name == "deploy") ≠ [])
    (haok : env.tasksAfter.ok = true) (hap : env.tasksAfter.parsed = some tss) :
    (schedule_deploy_task n hid env).2 =
      Event.activeQuery :: (ts.filter (fun t => t.hostName == n)).map
          (fun t => Event.cancelReq (some t.id))
        ++ [.tasktypeQuery, .schedulePost hid, .activeQuery] := by
  rw [schedule_deploy_task_spec n hid env ts tss hbok hbp htt haok hap]

theorem schedule_cancels_active_before_post_witness :
    (schedule_deploy_task "node1" 7 schedEnvB).2 =
      [.activeQuery, .cancelReq (some "old1"), .cancelReq (some "old2"),
       .tasktypeQuery, .schedulePost 7, .activeQuery] := by
  have h := schedule_cancels_active_before_post "node1" 7 schedEnvB staleTasks []
    rfl rfl (by decide) rfl rfl
  rw [h]
  decide

/-! ### Claim C7: the configuration gate of create -/

/-- C7 counterexample.  A configuration whose machine_types value is truthy
but parses to zero recognized machine types passes the `enabled` gate, so
`create` proceeds to its first service call instead of failing immediately:
being configured cannot mean that at least one recognized machine type is
present. -/
theorem create_enabled_without_recognized_type_counterexample :
    enabled createEnvNoType.conf = true ∧
    get_types createEnvNoType.conf = [] ∧
    (create createEnvNoType).2 = [Event.hostQuery] ∧
    (create createEnvNoType).1 = .error (.hostNotFound "node1") := by
  decide

/-- C7 amended.  `create` fails immediately — with no service call issued —
exactly when `enabled` is false, and `enabled` is true exactly when all
four configuration keys (endpoint, api_token, user_token, machine_types)
are non-empty; a truthy machine_types value does not guarantee a recognized
machine type. -/
theorem create_enabled_gate (env : CreateEnv) :
    (enabled env.conf = true ↔
      (env.conf.endpoint ≠ "" ∧ env.conf.api_token ≠ "" ∧ env.conf.user_token ≠ "" ∧
        env.conf.machine_types.truthy = true)) ∧
    (enabled env.conf = false → create env = (.error .notConfigured, [])) ∧
    (enabled env.conf = true → (create env).2.head? = some Event.hostQuery) := by
  refine ⟨?_, ?_, ?_⟩
  · simp [enabled, Bool.and_eq_true, bne_iff_ne, and_assoc]
  · intro hdis
    unfold create
    rw [if_pos hdis]
  · intro hen
    unfold create
    rw [if_neg (by simp [hen])]
    rfl

theorem create_enabled_gate_witness :
    create createEnvDisabled = (.error .notConfigured, []) :=
  (create_enabled_gate createEnvDisabled).2.1 rfl

/-! ### Claim C8: bounded readiness polling -/

theorem safeWhileLoop_false_spec (att : Nat → Bool) :
    ∀ fuel k, (safeWhileLoop att fuel k).1 = false →
      (safeWhileLoop att fuel k).2 = k + fuel ∧
      ∀ j, k ≤ j → j < k + fuel → att j = false
  | 0, k, _ => ⟨rfl, fun _ h1 h2 => absurd h2 (by omega)⟩
  | fuel + 1, k, h => by
    by_cases ha : att k
    · simp only [safeWhileLoop, if_pos ha] at h
      cases h
    · simp only [safeWhileLoop, if_neg ha] at h ⊢
      have ih := safeWhileLoop_false_spec att fuel (k + 1) h
      refine ⟨by rw [ih.1]; omega, ?_⟩
      intro j h1 h2
      rcases Nat.eq_or_lt_of_le h1 with rfl | hlt
      · simpa using ha
      · exact ih.2 j hlt (by omega)

theorem safeWhileLoop_true_spec (att : Nat → Bool) :
    ∀ fuel k, (safeWhileLoop att fuel k).1 = true →
      k < (safeWhileLoop att fuel k).2 ∧
      (safeWhileLoop att fuel k).2 ≤ k + fuel ∧
      att ((safeWhileLoop att fuel k).2 - 1) = true ∧
      ∀ j, k ≤ j → j + 1 < (safeWhileLoop att fuel k).2 → att j = false
  | 0, k, h => absurd h (by simp [safeWhileLoop])
  | fuel + 1, k, h => by
    by_cases ha : att k
    · simp only [safeWhileLoop, if_pos ha] at h ⊢
      exact ⟨by omega, by omega, by simpa using ha, fun _ h1 h2 => absurd h2 (by omega)⟩
    · simp only [safeWhileLoop, if_neg ha] at h ⊢
      have ih := safeWhileLoop_true_spec att fuel (k + 1) h
      refine ⟨by omega, by omega, ih.2.2.1, ?_⟩
      intro j h1 h2
      rcases Nat.eq_or_lt_of_le h1 with rfl | hlt
      · simpa using ha
      · exact ih.2.2.2 j hlt h2

/-- C8.  `_wait_for_ready` always ends in success or in a timeout error;
on success the SSH phase made between 1 and sshTimeout/6 + 1 connect
attempts, every attempt before the final successful one having failed
retryably; and the sentinel phase ran if and only if a sentinel file is
configured, within its own attempt budget, retrying on connection errors
and stopping at the first success. -/
theorem wait_for_ready_bounded (t : Nat) (env : ReadyEnv) :
    ((∃ r, wait_for_ready t env = .ok r) ∨
      wait_for_ready t env = .error .maxWhileTries) ∧
    (∀ nc ns, wait_for_ready t env = .ok (nc, ns) →
      (0 < nc ∧ nc ≤ t / 6 + 1 ∧ env.connects (nc - 1) = .ok ∧
        (∀ j, j + 1 < nc → env.connects j = .retryable)) ∧
      (env.sentinelFile = none ↔ ns = 0) ∧
      ns ≤ sentinelFuel ∧
      (0 < ns → env.runs (ns - 1) = .ok ∧ ∀ j, j + 1 < ns → env.runs j = .connErr)) := by
  have hconn : ∀ j : Nat, ((env.connects j == ConnectOutcome.ok) = false) →
      env.connects j = .retryable := by
    intro j hj
    rcases h : env.connects j with _ | _
    · rw [h] at hj; cases hj
    · rfl
  have hrun : ∀ j : Nat, ((env.runs j == RunOutcome.ok) = false) →
      env.runs j = .connErr := by
    intro j hj
    rcases h : env.runs j with _ | _
    · rw [h] at hj; cases hj
    · rfl
  unfold wait_for_ready
  cases hc : safeWhileLoop (fun k => env.connects k == ConnectOutcome.ok) (sshFuel t) 0 with
  | mk b nc0 =>
    cases b with
    | false =>
      exact ⟨Or.inr rfl, fun nc ns h => absurd h (by simp)⟩
    | true =>
      have hcs := safeWhileLoop_true_spec
        (fun k => env.connects k == ConnectOutcome.ok) (sshFuel t) 0 (by rw [hc])
      rw [hc] at hcs
      cases hsf : env.sentinelFile with
      | none =>
        refine ⟨Or.inl ⟨(nc0, 0), rfl⟩, ?_⟩
        intro nc ns h
        simp only [Except.ok.injEq, Prod.mk.injEq] at h
        rcases h with ⟨rfl, rfl⟩
        refine ⟨⟨by simpa using hcs.1, ?_, ?_, ?_⟩, by simp, by simp [sentinelFuel], by omega⟩
        · have := hcs.2.1
          simpa [sshFuel] using this
        · exact eq_of_beq hcs.2.2.1
        · intro j hj
          exact hconn j (hcs.2.2.2 j (by omega) hj)
      | some f =>
        cases hs : safeWhileLoop (fun k => env.runs k == RunOutcome.ok) sentinelFuel 0 with
        | mk b2 ns0 =>
          cases b2 with
          | false =>
            exact ⟨Or.inr rfl, fun nc ns h => absurd h (by simp)⟩
          | true =>
            have hss := safeWhileLoop_true_spec
              (fun k => env.runs k == RunOutcome.ok) sentinelFuel 0 (by rw [hs])
            rw [hs] at hss
            refine ⟨Or.inl ⟨(nc0, ns0), rfl⟩, ?_⟩
            intro nc ns h
            simp only [Except.ok.injEq, Prod.mk.injEq] at h
            rcases h with ⟨rfl, rfl⟩
            have hns : 0 < ns0 := by simpa using hss.1
            refine ⟨⟨by simpa using hcs.1, ?_, ?_, ?_⟩, ?_, ?_, ?_⟩
            · have := hcs.2.1
              simpa [sshFuel] using this
            · exact eq_of_beq hcs.2.2.1
            · intro j hj
              exact hconn j (hcs.2.2.2 j (by omega) hj)
            · constructor
              · intro hx
                cases hx
              · intro hx
                omega
            · have := hss.2.1
              simpa using this
            · intro _
              refine ⟨eq_of_beq hss.2.2.1, ?_⟩
              intro j hj
              exact hrun j (hss.2.2.2 j (by omega) hj)

theorem wait_for_ready_bounded_witness :
    (0 < 2 ∧ 2 ≤ 60 / 6 + 1 ∧ readyEnvA.connects (2 - 1) = .ok ∧
      (∀ j, j + 1 < 2 → readyEnvA.connects j = .retryable)) ∧
    (readyEnvA.sentinelFile = none ↔ 1 = 0) ∧
    (1 : Nat) ≤ sentinelFuel ∧
    (0 < 1 → readyEnvA.runs (1 - 1) = .ok ∧ ∀ j, j + 1 < 1 → readyEnvA.runs j = .connErr) :=
  (wait_for_ready_bounded 60 readyEnvA).2 2 1 (by decide)

/-! ### Trace helpers for the create-level claims -/

theorem image_events_benign (mt ot ov : String) (lookup : String → Option ImageRec)
    (si : List ImageRec) :
    ∀ e ∈ (get_image_data mt ot ov lookup si).2,
      Event.isSched e = false ∧ Event.isCancel e = false ∧ e ≠ Event.deployPoll := by
  intro e he
  simp only [get_image_data] at he
  rcases hl : lookup (image_name mt ot ov) with _ | img <;> rw [hl] at he
  · by_cases hc : (lowerStr ot == "centos" && !(strEndsWith ov ".stream")) = true
    · rw [if_pos hc] at he
      rcases hf : lookup (image_name mt ot ov ++ ".stream") with _ | img2 <;>
        rw [hf] at he <;> simp at he
      · rcases he with rfl | rfl | rfl <;> exact ⟨rfl, rfl, by simp⟩
      · rcases he with rfl | rfl <;> exact ⟨rfl, rfl, by simp⟩
    · rw [if_neg hc] at he
      simp at he
      rcases he with rfl | rfl <;> exact ⟨rfl, rfl, by simp⟩
  · simp at he
    subst he
    exact ⟨rfl, rfl, by simp⟩

theorem power_events_no_cancel (env : CreateEnv) (tid : Option String) :
    ∀ e ∈ (power_and_wait env tid).2,
      Event.isCancel e = false ∧ Event.isSched e = false := by
  intro e he
  unfold power_and_wait at he
  by_cases h1 : env.powerOffOk = false
  · rw [if_pos h1] at he
    simp at he
    subst he
    exact ⟨rfl, rfl⟩
  · rw [if_neg h1] at he
    by_cases h2 : env.powerOnOk = false
    · rw [if_pos h2] at he
      simp at he
      rcases he with rfl | rfl <;> exact ⟨rfl, rfl⟩
    · rw [if_neg h2] at he
      simp at he
      rcases he with rfl | rfl | ⟨-, rfl⟩ <;> exact ⟨rfl, rfl⟩

theorem schedule_ok_events (n : String) (hid : Nat) (env : ScheduleEnv) (tid : Option String)
    (h : (schedule_deploy_task n hid env).1 = .ok tid) :
    ∃ cs : List Event, (schedule_deploy_task n hid env).2 =
        Event.activeQuery :: cs
          ++ [Event.tasktypeQuery, Event.schedulePost hid, Event.activeQuery] ∧
      ∀ e ∈ cs, Event.isCancel e = true ∧ Event.isSched e = false := by
  simp only [schedule_deploy_task] at h ⊢
  revert h
  cases hb : get_deploy_tasks n env.tasksBefore with
  | error e =>
    intro h
    simp at h
  | ok pre =>
    cases hf : env.tasktypes.filter (fun tt => lowerStr tt.name == "deploy") with
    | nil =>
      intro h
      simp at h
    | cons a l =>
      cases ha : get_deploy_tasks n env.tasksAfter with
      | error e2 =>
        intro h
        simp at h
      | ok post =>
        intro _
        refine ⟨pre.map (fun t => Event.cancelReq (some t.id)), by simp, ?_⟩
        intro e he
        simp only [List.mem_map] at he
        rcases he with ⟨t, _, rfl⟩
        exact ⟨rfl, rfl⟩

theorem cancelsAfterSchedule_shape (ir2 cs pw2 tail : List Event) (a b hid : Nat)
    (hir : ∀ e ∈ ir2, Event.isSched e = false)
    (hcs : ∀ e ∈ cs, Event.isSched e = false)
    (hpw : ∀ e ∈ pw2, Event.isCancel e = false) :
    cancelsAfterSchedule (Event.hostQuery :: (ir2 ++ [Event.setImagePut a b]
        ++ (Event.activeQuery :: cs
          ++ [Event.tasktypeQuery, Event.schedulePost hid, Event.activeQuery])
        ++ pw2 ++ tail))
      = tail.filter Event.isCancel := by
  have heq : Event.hostQuery :: (ir2 ++ [Event.setImagePut a b]
      ++ (Event.activeQuery :: cs
        ++ [Event.tasktypeQuery, Event.schedulePost hid, Event.activeQuery])
      ++ pw2 ++ tail)
      = (Event.hostQuery :: ir2 ++ [Event.setImagePut a b, Event.activeQuery] ++ cs
          ++ [Event.tasktypeQuery])
        ++ (Event.schedulePost hid :: Event.activeQuery :: (pw2 ++ tail)) := by
    simp
  rw [heq]
  unfold cancelsAfterSchedule
  rw [dropWhile_append_all _ _ _ ?_]
  · rw [List.dropWhile_cons]
    simp only [Event.isSched, Bool.not_true, Bool.false_eq_true, if_false]
    simp only [List.filter_cons, List.filter_append, Event.isCancel,
      Bool.false_eq_true, if_false]
    rw [filter_eq_nil_all Event.isCancel pw2 hpw]
    simp
  · intro e he
    simp at he
    rcases he with rfl | he | rfl | rfl | he | rfl
    · rfl
    · simp [hir e he]
    · rfl
    · rfl
    · simp [hcs e he]
    · rfl

/-! ### Claim C1: compensating cancellation in create -/

/-- C1.  Once a deploy task has been scheduled, a failure of the power
cycle or of the deploy wait makes `create` issue exactly one cancel
request — for the scheduled task id, after the schedule POST — before the
original error propagates; a run in which neither of those steps raises
issues no cancel request at or after the schedule POST, whatever happens
later. -/
theorem create_cancels_once_on_power_or_wait_failure
    (env : CreateEnv) (host : HostRec) (image : ImageRec) (tid : Option String) (e : Err)
    (hen : enabled env.conf = true)
    (hh : get_host_data env.shortname env.hostResp = .ok host)
    (hi : (get_image_data env.machineType env.osType env.osVersion env.imageLookup
      env.searchImages).1 = .ok image)
    (hs : (schedule_deploy_task env.shortname host.id env.sched).1 = .ok tid)
    (hc : env.cancelOk = true) :
    ((power_and_wait env tid).1 = .error e →
      cancelsAfterSchedule (create env).2 = [Event.cancelReq tid] ∧
      (create env).1 = .error e) ∧
    ((power_and_wait env tid).1 = .ok () →
      cancelsAfterSchedule (create env).2 = []) := by
  obtain ⟨cs, hsr2, hcsprop⟩ := schedule_ok_events env.shortname host.id env.sched tid hs
  have hir := image_events_benign env.machineType env.osType env.osVersion
    env.imageLookup env.searchImages
  have hpw := power_events_no_cancel env tid
  have hgate : create env = ((create_body env).1, Event.hostQuery :: (create_body env).2) := by
    unfold create
    rw [if_neg (by simp [hen])]
  constructor
  · intro hp
    rw [hgate]
    simp only [create_body, hh, hi, hs, hp, hsr2]
    constructor
    · rw [cancelsAfterSchedule_shape _ cs _ _ host.id image.id host.id
        (fun e he => (hir e he).1) (fun e he => (hcsprop e he).2)
        (fun e he => (hpw e he).1)]
      rfl
    · simp [hc]
  · intro hp
    rw [hgate]
    simp only [create_body, hh, hi, hs, hp, hsr2]
    rw [cancelsAfterSchedule_shape _ cs _ _ host.id image.id host.id
      (fun e he => (hir e he).1) (fun e he => (hcsprop e he).2)
      (fun e he => (hpw e he).1)]
    split
    · rfl
    · split
      · rfl
      · rfl

theorem create_cancels_once_on_power_or_wait_failure_witness :
    cancelsAfterSchedule (create createEnvPowerFail).2 = [Event.cancelReq (some "t2")] ∧
    (create createEnvPowerFail).1 = .error .powerFailure :=
  (create_cancels_once_on_power_or_wait_failure createEnvPowerFail
    { id := 7, name := "node1" } { id := 42, name := "smithi_centos_9" }
    (some "t2") .powerFailure rfl rfl (by decide) (by decide) rfl).1 rfl

/-! ### Claim C10: the absent-task defect state -/

/-- C10.  When the freshness selection came up empty, `create` proceeds
with task_id = None: `deploy_task_active` with a None id is false against
every successfully listed active-task response (no task id equals None), so
the deploy wait returns after its very first poll without raising, and —
with the remaining steps succeeding — `create` completes as if the deploy
had finished, issuing no compensating cancel. -/
theorem create_none_task_silent_success
    (env : CreateEnv) (host : HostRec) (image : ImageRec)
    (hen : enabled env.conf = true)
    (hh : get_host_data env.shortname env.hostResp = .ok host)
    (hi : (get_image_data env.machineType env.osType env.osVersion env.imageLookup
      env.searchImages).1 = .ok image)
    (hs : (schedule_deploy_task env.shortname host.id env.sched).1 = .ok none)
    (hoff : env.powerOffOk = true) (hon : env.powerOnOk = true)
    (hpoll : (env.waitPolls 0).ok = true)
    (hready : env.readyOk = true) (hfix : env.fixOk = true) (hos : env.osOk = true) :
    (∀ resp : HttpResp (List TaskRec), resp.ok = true →
      deploy_task_active env.shortname none resp = .ok false) ∧
    wait_for_deploy_task env.shortname none env.waitPolls env.reimageTimeout = (.ok (), 1) ∧
    (create env).1 = .ok () ∧
    List.count Event.deployPoll (create env).2 = 1 ∧
    cancelsAfterSchedule (create env).2 = [] := by
  have hactive : ∀ resp : HttpResp (List TaskRec), resp.ok = true →
      deploy_task_active env.shortname none resp = .ok false := by
    intro resp hok
    have hany : ∀ l : List TaskRec, (l.any fun t => some t.id == none) = false := by
      intro l
      induction l with
      | nil => rfl
      | cons t ts ih => simp [List.any_cons, ih]
    unfold deploy_task_active get_deploy_tasks
    rw [if_neg (by simp [hok])]
    cases hp : resp.parsed with
    | none => simp [Except.map]
    | some ts => simp [Except.map, hany]
  have hwait : wait_for_deploy_task env.shortname none env.waitPolls
      env.reimageTimeout = (.ok (), 1) := by
    unfold wait_for_deploy_task
    obtain ⟨f, hf⟩ : ∃ f, deployWaitFuel env.reimageTimeout = f + 1 :=
      ⟨deployWaitFuel env.reimageTimeout - 1, by unfold deployWaitFuel; omega⟩
    rw [hf]
    simp only [waitLoop]
    rw [hactive (env.waitPolls 0) hpoll]
  have hpw : power_and_wait env none =
      (.ok (), [Event.powerOff, Event.powerOn, Event.deployPoll]) := by
    unfold power_and_wait
    rw [if_neg (by simp [hoff]), if_neg (by simp [hon]), hwait]
    rfl
  obtain ⟨cs, hsr2, hcsprop⟩ := schedule_ok_events env.shortname host.id env.sched none hs
  have hir := image_events_benign env.machineType env.osType env.osVersion
    env.imageLookup env.searchImages
  have hgate : create env = ((create_body env).1, Event.hostQuery :: (create_body env).2) := by
    unfold create
    rw [if_neg (by simp [hen])]
  have hbody : create_body env = (.ok (),
      (get_image_data env.machineType env.osType env.osVersion env.imageLookup
          env.searchImages).2
        ++ [Event.setImagePut host.id image.id]
        ++ (schedule_deploy_task env.shortname host.id env.sched).2
        ++ [Event.powerOff, Event.powerOn, Event.deployPoll]
        ++ [Event.readyWait, Event.fixHostnameStep, Event.verifyOsStep]) := by
    simp only [create_body, hh, hi, hs, hpw]
    simp [hready, hfix, hos]
  have hir0 : Event.deployPoll ∉ (get_image_data env.machineType env.osType env.osVersion
      env.imageLookup env.searchImages).2 :=
    fun hmem => absurd rfl (hir _ hmem).2.2
  have hcs0 : Event.deployPoll ∉ cs :=
    fun hmem => absurd (hcsprop _ hmem).1 (by decide)
  refine ⟨hactive, hwait, ?_, ?_, ?_⟩
  · rw [hgate, hbody]
  · rw [hgate, hbody, hsr2]
    simp [List.count_append, List.count_cons, List.count_eq_zero.mpr hir0,
      List.count_eq_zero.mpr hcs0]
  · rw [hgate, hbody, hsr2]
    rw [cancelsAfterSchedule_shape _ cs _ _ host.id image.id host.id
      (fun e he => (hir e he).1) (fun e he => (hcsprop e he).2)
      (by intro e he; simp at he; rcases he with rfl | rfl | rfl <;> rfl)]
    rfl

theorem create_none_task_silent_success_witness :
    (create createEnvNone).1 = .ok () ∧
    List.count Event.deployPoll (create createEnvNone).2 = 1 ∧
    cancelsAfterSchedule (create createEnvNone).2 = [] := by
  have h := create_none_task_silent_success createEnvNone
    { id := 7, name := "node1" } { id := 42, name := "smithi_centos_9" }
    rfl rfl (by decide) (by decide) rfl rfl rfl rfl rfl rfl
  exact ⟨h.2.2.1, h.2.2.2.1, h.2.2.2.2⟩

/-! ### Substitution lemmas for the hostname fix -/

theorem occursIn_nil_eq_false (old : List Char) (hold : old ≠ []) :
    occursIn old [] = false := by
  cases old with
  | nil => exact absurd rfl hold
  | cons o os => rfl

theorem occursIn_cons_false {pat : List Char} {c : Char} {rest : List Char}
    (h : occursIn pat (c :: rest) = false) : occursIn pat rest = false := by
  simp [occursIn] at h
  exact h.2

theorem occursIn_drop (pat : List Char) :
    ∀ (t : List Char) (k : Nat), occursIn pat t = false →
      occursIn pat (List.drop k t) = false
  | t, 0, h => by simpa using h
  | [], _ + 1, h => by simpa using h
  | c :: rest, k + 1, h => by
    rw [List.drop_succ_cons]
    exact occursIn_drop pat rest k (occursIn_cons_false h)

theorem occursIn_append_left_disjoint (old : List Char) (hold : old ≠ []) :
    ∀ (new X : List Char), (∀ c ∈ new, c ∉ old) → occursIn old X = false →
      occursIn old (new ++ X) = false := by
  intro new
  induction new with
  | nil =>
    intro X _ hX
    simpa using hX
  | cons d new' ih =>
    intro X hd hX
    rw [List.cons_append]
    have hrec := ih X (fun c hc => hd c (List.mem_cons_of_mem d hc)) hX
    rcases old with _ | ⟨o, os⟩
    · exact absurd rfl hold
    · have hdo : (o == d) = false := by
        refine beq_eq_false_iff_ne.mpr (fun h => ?_)
        subst h
        exact hd o (List.mem_cons_self o new') (List.mem_cons_self o os)
      simp [occursIn, isPrefOf, hdo, hrec]

theorem isPrefOf_replaceAllFuel (old new p : List Char) (hnew : new ≠ [])
    (hdisj : ∀ c ∈ new, c ∉ old) :
    ∀ (t : List Char) (fuel : Nat) (os : List Char), t.length ≤ fuel → os ≠ [] →
      (∀ c ∈ os, c ∈ old) → isPrefOf os (replaceAllFuel p new fuel t) = true →
      isPrefOf os t = true := by
  intro t
  induction t with
  | nil =>
    intro fuel os _ hos _ hpf
    rcases os with _ | ⟨o, os'⟩
    · exact absurd rfl hos
    · rw [show replaceAllFuel p new fuel [] = [] from by cases fuel <;> rfl] at hpf
      exact absurd hpf (by simp [isPrefOf])
  | cons c rest ih =>
    intro fuel os hlen hos hsub hpf
    rcases fuel with _ | fuel'
    · simp at hlen
    · have hlen' : rest.length ≤ fuel' := by
        simp only [List.length_cons] at hlen
        omega
      by_cases hg : p ≠ [] ∧ isPrefOf p (c :: rest) = true
      · rw [show replaceAllFuel p new (fuel' + 1) (c :: rest)
            = new ++ replaceAllFuel p new fuel' (List.drop (p.length - 1) rest) from by
          simp only [replaceAllFuel]
          rw [if_pos hg]] at hpf
        rcases new with _ | ⟨d, new'⟩
        · exact absurd rfl hnew
        · rcases os with _ | ⟨o, os'⟩
          · exact absurd rfl hos
          · rw [List.cons_append] at hpf
            simp [isPrefOf] at hpf
            have hne : o ≠ d := fun h =>
              hdisj d (List.mem_cons_self d new') (h ▸ hsub o (List.mem_cons_self o os'))
            exact absurd hpf.1 hne
      · rw [show replaceAllFuel p new (fuel' + 1) (c :: rest)
            = c :: replaceAllFuel p new fuel' rest from by
          simp only [replaceAllFuel]
          rw [if_neg hg]] at hpf
        rcases os with _ | ⟨o, os'⟩
        · exact absurd rfl hos
        · simp [isPrefOf] at hpf ⊢
          refine ⟨hpf.1, ?_⟩
          rcases os' with _ | ⟨o2, os''⟩
          · simp [isPrefOf]
          · exact ih fuel' (o2 :: os'') hlen' (by simp)
              (fun x hx => hsub x (List.mem_cons_of_mem o hx)) hpf.2

theorem occursIn_replaceAllFuel (old new p : List Char) (hold : old ≠ [])
    (hnew : new ≠ []) (hdisj : ∀ c ∈ new, c ∉ old) :
    ∀ (fuel : Nat) (t : List Char), t.length ≤ fuel →
      (p = old ∨ occursIn old t = false) →
      occursIn old (replaceAllFuel p new fuel t) = false := by
  intro fuel
  induction fuel with
  | zero =>
    intro t hlen _
    have ht : t = [] := by
      cases t with
      | nil => rfl
      | cons c r => simp at hlen
    subst ht
    exact occursIn_nil_eq_false old hold
  | succ fuel' ih =>
    intro t hlen hside
    rcases t with _ | ⟨c, rest⟩
    · exact occursIn_nil_eq_false old hold
    · have hlen' : rest.length ≤ fuel' := by
        simp only [List.length_cons] at hlen
        omega
      by_cases hg : p ≠ [] ∧ isPrefOf p (c :: rest) = true
      · rw [show replaceAllFuel p new (fuel' + 1) (c :: rest)
            = new ++ replaceAllFuel p new fuel' (List.drop (p.length - 1) rest) from by
          simp only [replaceAllFuel]
          rw [if_pos hg]]
        apply occursIn_append_left_disjoint old hold new _ hdisj
        apply ih
        · have hd := List.length_drop (p.length - 1) rest
          omega
        · rcases hside with rfl | hocc
          · exact Or.inl rfl
          · exact Or.inr (occursIn_drop old rest (p.length - 1) (occursIn_cons_false hocc))
      · rw [show replaceAllFuel p new (fuel' + 1) (c :: rest)
            = c :: replaceAllFuel p new fuel' rest from by
          simp only [replaceAllFuel]
          rw [if_neg hg]]
        have htail : occursIn old (replaceAllFuel p new fuel' rest) = false := by
          apply ih rest hlen'
          rcases hside with rfl | hocc
          · exact Or.inl rfl
          · exact Or.inr (occursIn_cons_false hocc)
        have hpf : isPrefOf old (c :: replaceAllFuel p new fuel' rest) = false := by
          rcases old with _ | ⟨o, os⟩
          · exact absurd rfl hold
          · rcases hoc : (o == c) with _ | _
            · simp [isPrefOf, hoc]
            · have hoc' : o = c := eq_of_beq hoc
              subst hoc'
              rcases os with _ | ⟨o2, os'⟩
              · exfalso
                have hfull : isPrefOf [o] (o :: rest) = true := by
                  simp [isPrefOf]
                rcases hside with rfl | hocc
                · exact hg ⟨hold, hfull⟩
                · rw [show occursIn [o] (o :: rest)
                      = (isPrefOf [o] (o :: rest) || occursIn [o] rest) from rfl,
                    hfull] at hocc
                  simp at hocc
              · rcases hpc : isPrefOf (o2 :: os') (replaceAllFuel p new fuel' rest) with _ | _
                · simp [isPrefOf, hpc]
                · exfalso
                  have hback := isPrefOf_replaceAllFuel (o :: o2 :: os') new p hnew hdisj
                    rest fuel' (o2 :: os') hlen' (by simp)
                    (fun x hx => List.mem_cons_of_mem o hx) hpc
                  have hfull : isPrefOf (o :: o2 :: os') (o :: rest) = true := by
                    simp [isPrefOf, hback]
                  rcases hside with rfl | hocc
                  · exact hg ⟨hold, hfull⟩
                  · rw [show occursIn (o :: o2 :: os') (o :: rest)
                        = (isPrefOf (o :: o2 :: os') (o :: rest)
                          || occursIn (o :: o2 :: os') rest) from rfl,
                      hfull] at hocc
                    simp at hocc
        simp [occursIn, hpf, htail]

/-- No occurrence of old survives a global substitution of old by new when
new is nonempty and shares no character with old; and no occurrence of old
is created by substituting some other pattern p whose replacement new
shares no character with old, when t held no old to begin with. -/
theorem occursIn_replaceAll (old new p t : List Char) (hold : old ≠ [])
    (hnew : new ≠ []) (hdisj : ∀ c ∈ new, c ∉ old)
    (hside : p = old ∨ occursIn old t = false) :
    occursIn old (replaceAll p new t) = false :=
  occursIn_replaceAllFuel old new p hold hnew hdisj t.length t le_rfl hside

/-! ### Claim C9: hostname reconciliation -/

/-- C9 counterexample.  With stale hostname node, short name node1 and a
hosts file "10.0.0.1 node" (a line with the stale name and an IP), the
claim premises hold, yet after reconciliation the stale hostname still
occurs in the hosts file: the literal substitution rewrote node to node1,
which contains node. -/
theorem fix_hostname_leftover_counterexample :
    grepLines fixEnvBad.wrongHostname hostStBad.hostsFile ≠ [] ∧
    (fix_hostname fixEnvBad hostStBad).hostsFile = "10.0.0.2 node1".data ∧
    occursIn fixEnvBad.wrongHostname (fix_hostname fixEnvBad hostStBad).hostsFile = true := by
  refine ⟨by decide, by decide, by decide⟩

/-- C9 amended.  For every hosts file with a line holding the stale
hostname, reconciliation sets the live hostname to the target short name
and rewrites the files by literal global substitution (stale hostname to
short name, then the extracted stale IP to the current IP in the hosts
file; stale hostname to short name in the hostname file).  When the
replacement strings are nonempty and share no character with what they
replace — so no substitution can reintroduce the replaced string — no
occurrence of the stale hostname remains in either file and no occurrence
of the extracted stale IP remains in the hosts file.  (The original
leftover-free guarantee fails in general, e.g. when the short name contains
the stale hostname, and the stale IP is never rewritten in the hostname
file.) -/
theorem fix_hostname_amended (env : FixEnv) (st : HostState) (line : List Char)
    (rest : List (List Char))
    (hmatch : grepLines env.wrongHostname st.hostsFile = line :: rest)
    (hw : env.wrongHostname ≠ []) (hs : env.shortname ≠ []) (hip : env.ipAddress ≠ [])
    (hipw : firstToken line ≠ [])
    (hd1 : ∀ c ∈ env.shortname, c ∉ env.wrongHostname)
    (hd2 : ∀ c ∈ env.ipAddress, c ∉ env.wrongHostname)
    (hd3 : ∀ c ∈ env.ipAddress, c ∉ firstToken line) :
    (fix_hostname env st).liveHostname = env.shortname ∧
    (fix_hostname env st).hostsFile =
      replaceAll (firstToken line) env.ipAddress
        (replaceAll env.wrongHostname env.shortname st.hostsFile) ∧
    (fix_hostname env st).hostnameFile =
      replaceAll env.wrongHostname env.shortname st.hostnameFile ∧
    occursIn env.wrongHostname (fix_hostname env st).hostsFile = false ∧
    occursIn (firstToken line) (fix_hostname env st).hostsFile = false ∧
    occursIn env.wrongHostname (fix_hostname env st).hostnameFile = false := by
  have hfix : fix_hostname env st =
      { hostsFile := replaceAll (firstToken line) env.ipAddress
          (replaceAll env.wrongHostname env.shortname st.hostsFile)
        hostnameFile := replaceAll env.wrongHostname env.shortname st.hostnameFile
        liveHostname := env.shortname } := by
    unfold fix_hostname
    rw [hmatch]
  rw [hfix]
  refine ⟨rfl, rfl, rfl, ?_, ?_, ?_⟩
  · exact occursIn_replaceAll env.wrongHostname env.ipAddress (firstToken line) _
      hw hip hd2
      (Or.inr (occursIn_replaceAll env.wrongHostname env.shortname env.wrongHostname
        st.hostsFile hw hs hd1 (Or.inl rfl)))
  · exact occursIn_replaceAll (firstToken line) env.ipAddress (firstToken line) _
      hipw hip hd3 (Or.inl rfl)
  · exact occursIn_replaceAll env.wrongHostname env.shortname env.wrongHostname
      st.hostnameFile hw hs hd1 (Or.inl rfl)

theorem fix_hostname_amended_witness :
    (fix_hostname fixEnvA hostStA).liveHostname = fixEnvA.shortname ∧
    occursIn fixEnvA.wrongHostname (fix_hostname fixEnvA hostStA).hostsFile = false ∧
    occursIn (firstToken "111 foo".data) (fix_hostname fixEnvA hostStA).hostsFile = false ∧
    occursIn fixEnvA.wrongHostname (fix_hostname fixEnvA hostStA).hostnameFile = false := by
  have h := fix_hostname_amended fixEnvA hostStA "111 foo".data []
    (by decide) (by decide) (by decide) (by decide) (by decide)
    (by decide) (by decide) (by decide)
  exact ⟨h.1, h.2.2.2.1, h.2.2.2.2.1, h.2.2.2.2.2⟩

end Fog
